import Mathlib

/-!
Verification of the clearance/credential access-control subsystem of the
Story-Systems repository against its specification.

The embedding models the shared schema (`shared/schema.ts`), the in-memory
storage backend (`MemStorage`), the relational backend (`DatabaseStorage`,
modelled over the same abstract store state), and the Express route handlers
of `server/routes.ts` that constitute the credential resolution engine and
the access decision function.

Modelling conventions:
* Clearance levels are nullable integer columns defaulting to 0 in the
  schema, with the domain being non-negative clearance values, so an axis
  value is `Option Nat` (`none` = SQL/JS `null`).
* JavaScript relational operators coerce `null` to `0` (`null <= 2` is
  `true`, `2 <= null` is `false`), so raw JS comparisons on nullable level
  fields are embedded through `Option.getD 0`; the explicit `|| 0`
  coercions used elsewhere in the source have the same meaning.
* Levels supplied by callers of `getAccessibleDocuments` come from
  `parseInt`, which can produce any integer, so supplied levels are `Int`.
* Timestamp fields (`createdAt`, `discoveredAt`, ...) carry no access-control
  meaning and are omitted.
* Async storage methods are embedded as pure state-passing functions; a
  thrown exception is an `Except.error`.
-/

namespace StorySystems

/-- A discoverable in-game login persona (`credentials` table of
`shared/schema.ts`; timestamps omitted). -/
structure Credential where
  id : Nat
  username : String
  password : String
  displayName : String
  securityLevel : Option Nat
  medicalLevel : Option Nat
  adminLevel : Option Nat
  notes : Option String
  isActive : Bool
  deriving DecidableEq

/-- Insert shape for a credential (`insertCredentialSchema`). -/
structure InsertCredential where
  username : String
  password : String
  displayName : String
  securityLevel : Option Nat
  medicalLevel : Option Nat
  adminLevel : Option Nat
  notes : Option String
  deriving DecidableEq

/-- A protected document (`documents` table; timestamps and revision
counter kept only where the access logic reads them — it reads none). -/
structure Document where
  id : Nat
  documentCode : String
  title : String
  content : String
  securityLevel : Option Nat
  medicalLevel : Option Nat
  adminLevel : Option Nat
  author : Option String
  hasImages : Bool
  images : List String
  relatedDocuments : List Nat
  deriving DecidableEq

/-- Insert shape for a document (`insertDocumentSchema`). -/
structure InsertDocument where
  documentCode : String
  title : String
  content : String
  securityLevel : Option Nat
  medicalLevel : Option Nat
  adminLevel : Option Nat
  author : Option String
  hasImages : Bool
  images : List String
  relatedDocuments : List Nat
  deriving DecidableEq

/-- A user-credential binding (`userCredentials` table). -/
structure UserCredential where
  id : Nat
  userId : Nat
  credentialId : Nat
  isSelected : Bool
  deriving DecidableEq

/-- Insert shape for a binding (`insertUserCredentialSchema`). -/
structure InsertUserCredential where
  userId : Nat
  credentialId : Nat
  isSelected : Bool
  deriving DecidableEq

/-- The joined record returned by `getUserCredentials`: a credential
together with the binding's `isSelected` flag
(TS type `Credential & \x7b isSelected: boolean \x7d`). -/
structure CredWithSelected where
  cred : Credential
  isSelected : Bool
  deriving DecidableEq

/-- The `\x7bsecurity, medical, admin\x7d` diagnostic payload built by the
document route; values are passed through raw (nullable). -/
structure ClearanceLevels where
  security : Option Nat
  medical : Option Nat
  admin : Option Nat
  deriving DecidableEq

/-- The mutable state of a storage backend: the three relevant tables in
iteration (insertion) order, plus `MemStorage`'s id counters. -/
structure Store where
  documents : List Document
  credentials : List Credential
  userCredentials : List UserCredential
  currentDocumentId : Nat
  currentCredentialId : Nat
  currentUserCredentialId : Nat
  deriving DecidableEq

/-- JS `a <= b` on two nullable numeric fields: `null` coerces to 0 on
either side. Also the meaning of `(a || 0) <= (b || 0)`. -/
def jsLe (a b : Option Nat) : Bool := a.getD 0 ≤ b.getD 0

/-- JS `a < b` on two nullable numeric fields. -/
def jsLt (a b : Option Nat) : Bool := a.getD 0 < b.getD 0

/-- JS `a <= x` where `a` is a nullable stored level and `x` an arbitrary
caller-supplied integer: `null` coerces to 0. -/
def jsLeInt (a : Option Nat) (x : Int) : Bool := (a.getD 0 : Int) ≤ x

namespace MemStorage

/-- `MemStorage.getDocument`: `this.documents.get(id)`. -/
def getDocument (s : Store) (id : Nat) : Option Document :=
  s.documents.find? (fun d => d.id == id)

/-- `MemStorage.getCredential`: `this.credentials.get(id)`. -/
def getCredential (s : Store) (id : Nat) : Option Credential :=
  s.credentials.find? (fun c => c.id == id)

/-- `MemStorage.getCredentialByUsername`: first credential (map insertion
order) whose username matches. -/
def getCredentialByUsername (s : Store) (username : String) : Option Credential :=
  s.credentials.find? (fun c => c.username == username)

/-- `MemStorage.getAccessibleDocuments`: per-axis `<=` filter over the
document map in iteration order (raw JS comparisons on nullable fields). -/
def getAccessibleDocuments (s : Store) (secLevel medLevel adminLevel : Int) : List Document :=
  s.documents.filter (fun doc =>
    jsLeInt doc.securityLevel secLevel &&
    jsLeInt doc.medicalLevel medLevel &&
    jsLeInt doc.adminLevel adminLevel)

/-- `MemStorage.createDocument`: assigns the next document id and stores
the record. -/
def createDocument (s : Store) (d : InsertDocument) : Document × Store :=
  let id := s.currentDocumentId
  let document : Document :=
    { id := id, documentCode := d.documentCode, title := d.title,
      content := d.content, securityLevel := d.securityLevel,
      medicalLevel := d.medicalLevel, adminLevel := d.adminLevel,
      author := d.author, hasImages := d.hasImages, images := d.images,
      relatedDocuments := d.relatedDocuments }
  (document, { s with documents := s.documents ++ [document],
                      currentDocumentId := id + 1 })

/-- `MemStorage.createCredential`: assigns the next credential id, sets
`isActive := true`, and stores the record. -/
def createCredential (s : Store) (c : InsertCredential) : Credential × Store :=
  let id := s.currentCredentialId
  let credential : Credential :=
    { id := id, username := c.username, password := c.password,
      displayName := c.displayName, securityLevel := c.securityLevel,
      medicalLevel := c.medicalLevel, adminLevel := c.adminLevel,
      notes := c.notes, isActive := true }
  (credential, { s with credentials := s.credentials ++ [credential],
                        currentCredentialId := id + 1 })

/-- The join step of `MemStorage.getUserCredentials`
(`Promise.all(entries.map(...))`): looks each binding's credential up and
throws (`Promise` rejection) at the first binding whose credential id is
absent from the credential store. -/
def joinBindings (s : Store) : List UserCredential → Except String (List CredWithSelected)
  | [] => .ok []
  | uc :: rest =>
    match getCredential s uc.credentialId with
    | none => .error ("Credential with id " ++ toString uc.credentialId ++ " not found")
    | some c =>
      match joinBindings s rest with
      | .error e => .error e
      | .ok tail => .ok ({ cred := c, isSelected := uc.isSelected } :: tail)

/-- `MemStorage.getUserCredentials`: the user's bindings in store iteration
order, joined to their credential records; throws on a dangling binding. -/
def getUserCredentials (s : Store) (userId : Nat) : Except String (List CredWithSelected) :=
  joinBindings s (s.userCredentials.filter (fun uc => uc.userId == userId))

/-- `MemStorage.addCredentialToUser`: assigns the next binding id and
stores the binding. -/
def addCredentialToUser (s : Store) (ins : InsertUserCredential) : UserCredential × Store :=
  let id := s.currentUserCredentialId
  let userCredential : UserCredential :=
    { id := id, userId := ins.userId, credentialId := ins.credentialId,
      isSelected := ins.isSelected }
  (userCredential, { s with userCredentials := s.userCredentials ++ [userCredential],
                            currentUserCredentialId := id + 1 })

/-- The per-binding unselect step of `setSelectedCredential`:
`map.set(uc.id, \x7b ...uc, isSelected: false \x7d)` for each binding of
`userId`. -/
def unselectIf (userId : Nat) (uc : UserCredential) : UserCredential :=
  if uc.userId == userId then { uc with isSelected := false } else uc

/-- The re-select step: `map.set(target.id, updated)` replaces the entry
with the target's id in place. -/
def flipAt (targetId : Nat) (updated : UserCredential) (uc : UserCredential) : UserCredential :=
  if uc.id == targetId then updated else uc

/-- `MemStorage.setSelectedCredential`: first unselects every binding of
the user, then looks for the user's binding to `credentialId`; if found,
marks it selected and returns it, otherwise returns `undefined` (with the
unselect step already applied). -/
def setSelectedCredential (s : Store) (userId credentialId : Nat) :
    Option UserCredential × Store :=
  let userCredentialEntries := s.userCredentials.filter (fun uc => uc.userId == userId)
  let afterUnselect := s.userCredentials.map (unselectIf userId)
  match userCredentialEntries.find? (fun uc => uc.credentialId == credentialId) with
  | some target =>
    let updated := { target with isSelected := true }
    (some updated,
     { s with userCredentials := afterUnselect.map (flipAt target.id updated) })
  | none => (none, { s with userCredentials := afterUnselect })

/-- `MemStorage.checkIfCredentialObsolete`: the first of the user's joined
credentials that the new credential dominates per-axis with at least one
axis strictly greater; propagates `getUserCredentials`'s exception. -/
def checkIfCredentialObsolete (s : Store) (userId : Nat) (newCredential : Credential) :
    Except String (Option CredWithSelected) :=
  match getUserCredentials s userId with
  | .error e => .error e
  | .ok userCreds =>
    .ok (userCreds.find? (fun existingCred =>
      jsLe existingCred.cred.securityLevel newCredential.securityLevel &&
      jsLe existingCred.cred.medicalLevel newCredential.medicalLevel &&
      jsLe existingCred.cred.adminLevel newCredential.adminLevel &&
      (jsLt existingCred.cred.securityLevel newCredential.securityLevel ||
       jsLt existingCred.cred.medicalLevel newCredential.medicalLevel ||
       jsLt existingCred.cred.adminLevel newCredential.adminLevel)))

/-- `MemStorage.removeCredentialFromUser`: deletes every binding matching
`(userId, credentialId)`; returns whether any existed. -/
def removeCredentialFromUser (s : Store) (userId credentialId : Nat) : Bool × Store :=
  let matching := s.userCredentials.filter
    (fun uc => uc.userId == userId && uc.credentialId == credentialId)
  if matching.isEmpty then (false, s)
  else
    let remaining := s.userCredentials.filter
      (fun uc => !(uc.userId == userId && uc.credentialId == credentialId))
    (true, { s with userCredentials := remaining })

end MemStorage

namespace DatabaseStorage

/-- `DatabaseStorage.getAccessibleDocuments`: fetches all documents and
filters with explicit null checks
(`doc.securityLevel === null || doc.securityLevel <= secLevel`, per axis). -/
def getAccessibleDocuments (s : Store) (secLevel medLevel adminLevel : Int) : List Document :=
  s.documents.filter (fun doc =>
    (doc.securityLevel.isNone || (doc.securityLevel.getD 0 : Int) ≤ secLevel) &&
    (doc.medicalLevel.isNone || (doc.medicalLevel.getD 0 : Int) ≤ medLevel) &&
    (doc.adminLevel.isNone || (doc.adminLevel.getD 0 : Int) ≤ adminLevel))

/-- `DatabaseStorage.getUserCredentials`: joins each binding of the user to
its credential record, **silently skipping** a binding whose credential no
longer exists (`if (credential) \x7b result.push(...) \x7d` with no else). -/
def getUserCredentials (s : Store) (userId : Nat) : List CredWithSelected :=
  (s.userCredentials.filter (fun uc => uc.userId == userId)).filterMap
    (fun uc => (MemStorage.getCredential s uc.credentialId).map
      (fun c => { cred := c, isSelected := uc.isSelected }))

/-- `DatabaseStorage.checkIfCredentialObsolete`: same strict-dominance scan
as the in-memory variant, with explicit `|| 0` coercions on both sides. -/
def checkIfCredentialObsolete (s : Store) (userId : Nat) (newCredential : Credential) :
    Option CredWithSelected :=
  let newSecLevel := newCredential.securityLevel.getD 0
  let newMedLevel := newCredential.medicalLevel.getD 0
  let newAdminLevel := newCredential.adminLevel.getD 0
  (getUserCredentials s userId).find? (fun existingCred =>
    let existSecLevel := existingCred.cred.securityLevel.getD 0
    let existMedLevel := existingCred.cred.medicalLevel.getD 0
    let existAdminLevel := existingCred.cred.adminLevel.getD 0
    existSecLevel ≤ newSecLevel && existMedLevel ≤ newMedLevel &&
    existAdminLevel ≤ newAdminLevel &&
    (existSecLevel < newSecLevel || existMedLevel < newMedLevel ||
     existAdminLevel < newAdminLevel))

end DatabaseStorage

/-- Value of the longest leading run of decimal digits, or `none` if there
is no leading digit. -/
def leadingDigits (cs : List Char) : Option Nat :=
  let ds := cs.takeWhile Char.isDigit
  if ds.isEmpty then none
  else some (ds.foldl (fun acc c => acc * 10 + (c.toNat - 48)) 0)

/-- JS `parseInt(str)` for base-10 inputs: skip leading whitespace, read an
optional sign and then the longest digit run; `none` stands for `NaN`. -/
def jsParseInt (str : String) : Option Int :=
  let cs := str.toList.dropWhile (fun c => c == ' ' || c == '\t' || c == '\n' || c == '\r')
  match cs with
  | '-' :: rest => (leadingDigits rest).map (fun n => -(n : Int))
  | '+' :: rest => (leadingDigits rest).map (fun n => (n : Int))
  | _ => (leadingDigits cs).map (fun n => (n : Int))

namespace Routes

/-- The `parseInt(req.query.x as string) || 0` coercion of the accessible-
documents route: a missing parameter is `undefined`, `parseInt` of it is
`NaN`, and `NaN || 0` is `0`; a parse result of `0` is falsy and `|| 0`
maps it to itself. -/
def parseQueryLevel (q : Option String) : Int :=
  match q with
  | none => 0
  | some str => (jsParseInt str).getD 0

/-- `GET /api/documents/accessible` (authentication already established):
coerces the three query parameters and delegates to
`getAccessibleDocuments`. -/
def accessibleDocuments (s : Store) (qSec qMed qAdmin : Option String) : List Document :=
  MemStorage.getAccessibleDocuments s
    (parseQueryLevel qSec) (parseQueryLevel qMed) (parseQueryLevel qAdmin)

/-- Outcome of `GET /api/documents/:id` for an authenticated caller. -/
inductive DocumentResult where
  /-- 404: no document with the requested id. -/
  | notFound : DocumentResult
  /-- 403 with `requiredLevels` only (no `currentLevels`):
  no credential selected. -/
  | noCredentialSelected (requiredLevels : ClearanceLevels) : DocumentResult
  /-- 403 with both `requiredLevels` and `currentLevels`:
  insufficient permissions. -/
  | insufficientPermissions (requiredLevels currentLevels : ClearanceLevels) : DocumentResult
  /-- 200 with the document body. -/
  | ok (document : Document) : DocumentResult
  /-- 500: the storage layer threw. -/
  | serverError : DocumentResult
  deriving DecidableEq

/-- `GET /api/documents/:id` (authentication and id parsing already
established): looks the document up, fetches the caller's selected
credential, and applies the per-axis `(x || 0) >= (y || 0)` access checks. -/
def getDocumentById (s : Store) (userId : Nat) (docId : Nat) : DocumentResult :=
  match MemStorage.getDocument s docId with
  | none => .notFound
  | some document =>
    match MemStorage.getUserCredentials s userId with
    | .error _ => .serverError
    | .ok userCredentials =>
      match userCredentials.find? (fun cred => cred.isSelected) with
      | none =>
        .noCredentialSelected
          { security := document.securityLevel, medical := document.medicalLevel,
            admin := document.adminLevel }
      | some selectedCredential =>
        let hasSecurityAccess := jsLe document.securityLevel selectedCredential.cred.securityLevel
        let hasMedicalAccess := jsLe document.medicalLevel selectedCredential.cred.medicalLevel
        let hasAdminAccess := jsLe document.adminLevel selectedCredential.cred.adminLevel
        if !hasSecurityAccess || !hasMedicalAccess || !hasAdminAccess then
          .insufficientPermissions
            { security := document.securityLevel, medical := document.medicalLevel,
              admin := document.adminLevel }
            { security := selectedCredential.cred.securityLevel,
              medical := selectedCredential.cred.medicalLevel,
              admin := selectedCredential.cred.adminLevel }
        else .ok document

/-- Outcome of `POST /api/credentials/verify` for an authenticated caller. -/
inductive VerifyResult where
  /-- 400: username or password missing (falsy). -/
  | badRequest : VerifyResult
  /-- 401: unknown username, or password mismatch. -/
  | invalidCredentials : VerifyResult
  /-- 409: the caller already holds this credential. -/
  | alreadyAcquired (credential : Credential) : VerifyResult
  /-- 200: credential bound and selected; reports the credential it made
  obsolete, if any. -/
  | ok (credential : Credential) (obsoleteCredential : Option CredWithSelected) : VerifyResult
  /-- 500: the storage layer threw. -/
  | serverError : VerifyResult
  deriving DecidableEq

/-- Whether a verify-route response is the 200 success shape. -/
def VerifyResult.isOk : VerifyResult → Bool
  | .ok _ _ => true
  | _ => false

/-- `POST /api/credentials/verify` (authentication already established):
resolves the submitted username/password against the credential store,
rejects duplicates, reports obsolescence, then binds and selects the
credential. Returns the response together with the post-state. -/
def verifyCredential (s : Store) (userId : Nat) (username password : String) :
    VerifyResult × Store :=
  if username == "" || password == "" then (.badRequest, s)
  else
    match MemStorage.getCredentialByUsername s username with
    | none => (.invalidCredentials, s)
    | some credential =>
      if password ≠ credential.password then (.invalidCredentials, s)
      else
        match MemStorage.getUserCredentials s userId with
        | .error _ => (.serverError, s)
        | .ok userCredentials =>
          if userCredentials.any (fun c => c.cred.id == credential.id) then
            (.alreadyAcquired credential, s)
          else
            match MemStorage.checkIfCredentialObsolete s userId credential with
            | .error _ => (.serverError, s)
            | .ok obsoleteCredential =>
              let s1 := (MemStorage.addCredentialToUser s
                { userId := userId, credentialId := credential.id,
                  isSelected := true }).2
              let s2 := (MemStorage.setSelectedCredential s1 userId credential.id).2
              (.ok credential obsoleteCredential, s2)

end Routes

/-- One user-visible operation of the credential resolution engine, as
invoked through the HTTP routes. -/
inductive ResolutionOp where
  /-- `POST /api/credentials/verify` by `userId`. -/
  | verifyAcquire (userId : Nat) (username password : String) : ResolutionOp
  /-- `POST /api/credentials/select/:credentialId` by `userId`. -/
  | select (userId credentialId : Nat) : ResolutionOp
  /-- `DELETE /api/credentials/:credentialId` by `userId`. -/
  | remove (userId credentialId : Nat) : ResolutionOp

/-- State effect of one resolution operation (responses discarded). -/
def applyResolutionOp (s : Store) : ResolutionOp → Store
  | .verifyAcquire userId username password =>
    (Routes.verifyCredential s userId username password).2
  | .select userId credentialId =>
    (MemStorage.setSelectedCredential s userId credentialId).2
  | .remove userId credentialId =>
    (MemStorage.removeCredentialFromUser s userId credentialId).2

/-- A storage state with empty tables and all id counters at 1, as built by
the `MemStorage` constructor before `initializeData`. -/
def emptyStore : Store :=
  { documents := [], credentials := [], userCredentials := [],
    currentDocumentId := 1, currentCredentialId := 1, currentUserCredentialId := 1 }

/-- The seed state produced by `MemStorage.initializeData`: three documents
and one credential, no user-credential bindings. -/
def memInitialStore : Store :=
  let s1 := (MemStorage.createDocument emptyStore
    { documentCode := "DOC-2301", title := "SCP Containment Protocol",
      content := "SCP is to be contained in a standard humanoid containment cell with reinforced walls...",
      securityLevel := some 1, medicalLevel := some 0, adminLevel := some 0,
      author := some "Dr. [REDACTED]", hasImages := false, images := [],
      relatedDocuments := [] }).2
  let s2 := (MemStorage.createDocument s1
    { documentCode := "DOC-4382", title := "Medical Report: Incident 4382",
      content := "A research assistant assigned to Lab-19 reported symptoms consistent with [DATA EXPUNGED]...",
      securityLevel := some 0, medicalLevel := some 2, adminLevel := some 0,
      author := some "Dr. [REDACTED]", hasImages := true,
      images := ["neural_scan.jpg"], relatedDocuments := [1, 3] }).2
  let s3 := (MemStorage.createDocument s2
    { documentCode := "DOC-9173", title := "Site Director Memo",
      content := "All personnel are reminded that access to SCP is restricted to those with proper clearance...",
      securityLevel := some 0, medicalLevel := some 0, adminLevel := some 2,
      author := some "Site Director", hasImages := false, images := [],
      relatedDocuments := [] }).2
  (MemStorage.createCredential s3
    { username := "visitor_temporary", password := "guest123",
      displayName := "visitor_temporary", securityLevel := some 0,
      medicalLevel := some 0, adminLevel := some 0, notes := none }).2

/-- The clearance vector granted by a credential. -/
@[reducible] def Credential.levels (c : Credential) : ClearanceLevels :=
  { security := c.securityLevel, medical := c.medicalLevel, admin := c.adminLevel }

/-- The clearance vector required by a document. -/
@[reducible] def Document.levels (d : Document) : ClearanceLevels :=
  { security := d.securityLevel, medical := d.medicalLevel, admin := d.adminLevel }

/-- Spec §4.1 dominance: per-axis greater-or-equal, missing/null axis
values treated as 0. -/
@[reducible] def Dominates (v r : ClearanceLevels) : Prop :=
  r.security.getD 0 ≤ v.security.getD 0 ∧
  r.medical.getD 0 ≤ v.medical.getD 0 ∧
  r.admin.getD 0 ≤ v.admin.getD 0

/-- Spec §4.1 strict dominance: dominance with at least one axis strictly
greater. -/
@[reducible] def StrictlyDominates (v w : ClearanceLevels) : Prop :=
  Dominates v w ∧
  (w.security.getD 0 < v.security.getD 0 ∨
   w.medical.getD 0 < v.medical.getD 0 ∨
   w.admin.getD 0 < v.admin.getD 0)

/-- Whether a binding belongs to user `u` and is marked selected. -/
def selectedFor (u : Nat) (b : UserCredential) : Bool :=
  b.userId == u && b.isSelected

/-- Number of selected bindings of user `u` in the store. -/
def selCount (u : Nat) (s : Store) : Nat :=
  s.userCredentials.countP (selectedFor u)

/-- Well-formedness of the binding table maintained by `MemStorage`'s id
counter: binding ids strictly increase along the insertion order and stay
below the next-id counter. -/
@[reducible] def BindingIdsOk (s : Store) : Prop :=
  List.Pairwise (· < ·) (s.userCredentials.map (fun b => b.id)) ∧
  ∀ b ∈ s.userCredentials, b.id < s.currentUserCredentialId

/-- Sample credential with clearance vector (1,0,0). -/
def credLow : Credential :=
  { id := 10, username := "alpha", password := "a", displayName := "Low",
    securityLevel := some 1, medicalLevel := some 0, adminLevel := some 0,
    notes := none, isActive := true }

/-- Sample credential with clearance vector (2,0,0). -/
def credHigh : Credential :=
  { id := 11, username := "beta", password := "b", displayName := "High",
    securityLevel := some 2, medicalLevel := some 0, adminLevel := some 0,
    notes := none, isActive := true }

/-- Sample credential with clearance vector (0,2,0); its username
duplicates `credLow`'s. -/
def credMed : Credential :=
  { id := 12, username := "alpha", password := "z", displayName := "Med",
    securityLevel := some 0, medicalLevel := some 2, adminLevel := some 0,
    notes := none, isActive := true }

/-- Sample document requiring clearance (3,0,0). -/
def docA : Document :=
  { id := 1, documentCode := "D-A", title := "A", content := "a",
    securityLevel := some 3, medicalLevel := some 0, adminLevel := some 0,
    author := none, hasImages := false, images := [], relatedDocuments := [] }

/-- Sample document requiring clearance (0,0,0). -/
def docB : Document :=
  { id := 2, documentCode := "D-B", title := "B", content := "b",
    securityLevel := some 0, medicalLevel := some 0, adminLevel := some 0,
    author := none, hasImages := false, images := [], relatedDocuments := [] }

/-- Demonstration store: user 1 holds and has selected `credLow`; user 2
holds `credMed` unselected; `credHigh` is unbound. -/
def demoStore : Store :=
  { documents := [docA, docB],
    credentials := [credLow, credHigh, credMed],
    userCredentials :=
      [{ id := 1, userId := 1, credentialId := 10, isSelected := true },
       { id := 2, userId := 2, credentialId := 12, isSelected := false }],
    currentDocumentId := 3, currentCredentialId := 13,
    currentUserCredentialId := 3 }

/-- A corrupted store: user 1 has a binding to credential id 42, which is
absent from the credential table. -/
def danglingStore : Store :=
  { documents := [], credentials := [],
    userCredentials := [{ id := 1, userId := 1, credentialId := 42, isSelected := false }],
    currentDocumentId := 1, currentCredentialId := 1, currentUserCredentialId := 2 }

/-- First filter-example document: requires (1,0,0). -/
def docF1 : Document :=
  { id := 1, documentCode := "F-1", title := "F1", content := "f1",
    securityLevel := some 1, medicalLevel := some 0, adminLevel := some 0,
    author := none, hasImages := false, images := [], relatedDocuments := [] }

/-- Second filter-example document: requires (3,0,0). -/
def docF2 : Document :=
  { id := 2, documentCode := "F-2", title := "F2", content := "f2",
    securityLevel := some 3, medicalLevel := some 0, adminLevel := some 0,
    author := none, hasImages := false, images := [], relatedDocuments := [] }

/-- Third filter-example document: requires (0,1,0). -/
def docF3 : Document :=
  { id := 3, documentCode := "F-3", title := "F3", content := "f3",
    securityLevel := some 0, medicalLevel := some 1, adminLevel := some 0,
    author := none, hasImages := false, images := [], relatedDocuments := [] }

/-- Store for the filter-correctness example: documents requiring
(1,0,0), (3,0,0) and (0,1,0). -/
def filterStore : Store :=
  { documents := [docF1, docF2, docF3],
    credentials := [], userCredentials := [],
    currentDocumentId := 4, currentCredentialId := 1, currentUserCredentialId := 1 }

/-- Whether a query parameter is missing (`undefined`) or non-numeric
(`parseInt` yields `NaN`). -/
def malformedParam (q : Option String) : Bool :=
  match q with
  | none => true
  | some str => (jsParseInt str).isNone

/-- Whether an embedded async storage call rejected (threw). -/
def exceptThrew {α : Type} : Except String α → Bool
  | .error _ => true
  | .ok _ => false

/-! ### Basic lemmas about the binding-mutation steps -/

lemma unselectIf_id (u : Nat) (b : UserCredential) :
    (MemStorage.unselectIf u b).id = b.id := by
  unfold MemStorage.unselectIf
  split <;> rfl

lemma unselectIf_userId (u : Nat) (b : UserCredential) :
    (MemStorage.unselectIf u b).userId = b.userId := by
  unfold MemStorage.unselectIf
  split <;> rfl

lemma unselectIf_credentialId (u : Nat) (b : UserCredential) :
    (MemStorage.unselectIf u b).credentialId = b.credentialId := by
  unfold MemStorage.unselectIf
  split <;> rfl

lemma selectedFor_unselectIf (u u' : Nat) (b : UserCredential) :
    selectedFor u (MemStorage.unselectIf u' b) = true → selectedFor u b = true := by
  unfold MemStorage.unselectIf selectedFor
  split
  · simp
  · exact fun h => h

lemma flipAt_id (tid : Nat) (upd b : UserCredential) (hupd : upd.id = tid) :
    (MemStorage.flipAt tid upd b).id = b.id := by
  unfold MemStorage.flipAt
  split
  · next h => rw [hupd]; exact (eq_of_beq h).symm
  · rfl

lemma map_id_unselectIf (u : Nat) (l : List UserCredential) :
    (l.map (MemStorage.unselectIf u)).map (fun b => b.id) = l.map (fun b => b.id) := by
  rw [List.map_map]
  exact List.map_congr_left (fun b _ => unselectIf_id u b)

lemma map_id_flipAt (tid : Nat) (upd : UserCredential) (l : List UserCredential)
    (hupd : upd.id = tid) :
    (l.map (MemStorage.flipAt tid upd)).map (fun b => b.id) = l.map (fun b => b.id) := by
  rw [List.map_map]
  exact List.map_congr_left (fun b _ => flipAt_id tid upd b hupd)

lemma setSelectedCredential_eq_none (s : Store) (u c : Nat)
    (h : (s.userCredentials.filter (fun uc => uc.userId == u)).find?
           (fun uc => uc.credentialId == c) = none) :
    MemStorage.setSelectedCredential s u c =
      (none, { s with userCredentials := s.userCredentials.map (MemStorage.unselectIf u) }) := by
  unfold MemStorage.setSelectedCredential
  simp only [h]

lemma setSelectedCredential_eq_some (s : Store) (u c : Nat) (target : UserCredential)
    (h : (s.userCredentials.filter (fun uc => uc.userId == u)).find?
           (fun uc => uc.credentialId == c) = some target) :
    MemStorage.setSelectedCredential s u c =
      (some { target with isSelected := true },
       { s with userCredentials := (s.userCredentials.map (MemStorage.unselectIf u)).map (MemStorage.flipAt target.id { target with isSelected := true }) }) := by
  unfold MemStorage.setSelectedCredential
  simp only [h]

lemma countP_beq_id_le_one (l : List UserCredential)
    (h : List.Pairwise (· < ·) (l.map (fun b => b.id))) (tid : Nat) :
    l.countP (fun b => b.id == tid) ≤ 1 := by
  have nd : (l.map (fun b => b.id)).Nodup := h.imp (fun hab => Nat.ne_of_lt hab)
  have hc := List.nodup_iff_count_le_one.mp nd tid
  rw [List.count_eq_countP, List.countP_map] at hc
  exact hc

/-! ### Selection counting under `setSelectedCredential` -/

lemma selCount_setSelected_self (s : Store) (u c : Nat)
    (hids : List.Pairwise (· < ·) (s.userCredentials.map (fun b => b.id))) :
    selCount u (MemStorage.setSelectedCredential s u c).2 ≤ 1 := by
  cases hfind : (s.userCredentials.filter (fun uc => uc.userId == u)).find?
      (fun uc => uc.credentialId == c) with
  | none =>
    rw [setSelectedCredential_eq_none s u c hfind]
    unfold selCount
    simp only [List.countP_map]
    have hz : s.userCredentials.countP (selectedFor u ∘ MemStorage.unselectIf u) = 0 := by
      rw [List.countP_eq_zero]
      intro b _
      simp only [Function.comp, MemStorage.unselectIf, selectedFor]
      split
      · simp
      · next hne =>
        simp only [Bool.and_eq_true, not_and]
        intro hbu
        exact absurd hbu hne
    rw [hz]
    exact Nat.zero_le 1
  | some target =>
    rw [setSelectedCredential_eq_some s u c target hfind]
    unfold selCount
    simp only [List.countP_map]
    refine Nat.le_trans (List.countP_mono_left ?_) (countP_beq_id_le_one _ hids target.id)
    intro b _ hb
    simp only [Function.comp] at hb
    cases hid : b.id == target.id with
    | true => rfl
    | false =>
      exfalso
      unfold MemStorage.flipAt at hb
      rw [unselectIf_id, hid] at hb
      simp only [Bool.false_eq_true, if_false] at hb
      unfold MemStorage.unselectIf at hb
      split at hb
      · unfold selectedFor at hb
        simp at hb
      · next hne =>
        unfold selectedFor at hb
        exact hne ((Bool.and_eq_true _ _).mp hb).1

lemma selCount_setSelected_other (s : Store) (u u' c : Nat) (hne : u ≠ u') :
    selCount u (MemStorage.setSelectedCredential s u' c).2 ≤ selCount u s := by
  cases hfind : (s.userCredentials.filter (fun uc => uc.userId == u')).find?
      (fun uc => uc.credentialId == c) with
  | none =>
    rw [setSelectedCredential_eq_none s u' c hfind]
    unfold selCount
    simp only [List.countP_map]
    exact List.countP_mono_left (fun b _ hb => selectedFor_unselectIf u u' b hb)
  | some target =>
    have htu : (target.userId == u') = true :=
      (List.mem_filter.mp (List.mem_of_find?_eq_some hfind)).2
    rw [setSelectedCredential_eq_some s u' c target hfind]
    unfold selCount
    simp only [List.countP_map]
    apply List.countP_mono_left
    intro b _ hb
    simp only [Function.comp] at hb
    cases hid : b.id == target.id with
    | false =>
      unfold MemStorage.flipAt at hb
      rw [unselectIf_id, hid] at hb
      simp only [Bool.false_eq_true, if_false] at hb
      exact selectedFor_unselectIf u u' b hb
    | true =>
      exfalso
      unfold MemStorage.flipAt at hb
      rw [unselectIf_id, hid] at hb
      simp only [if_true] at hb
      unfold selectedFor at hb
      have hup : (target.userId == u) = true := ((Bool.and_eq_true _ _).mp hb).1
      exact hne ((eq_of_beq hup).symm.trans (eq_of_beq htu))

/-! ### Preservation of binding-table well-formedness -/

lemma bindingIdsOk_setSelected (s : Store) (u c : Nat) (h : BindingIdsOk s) :
    BindingIdsOk (MemStorage.setSelectedCredential s u c).2 := by
  obtain ⟨hp, hb⟩ := h
  cases hfind : (s.userCredentials.filter (fun uc => uc.userId == u)).find?
      (fun uc => uc.credentialId == c) with
  | none =>
    rw [setSelectedCredential_eq_none s u c hfind]
    refine ⟨?_, ?_⟩
    · show List.Pairwise _ ((s.userCredentials.map (MemStorage.unselectIf u)).map _)
      rw [map_id_unselectIf]
      exact hp
    · intro b hbm
      obtain ⟨b0, hb0, rfl⟩ := List.mem_map.mp hbm
      rw [unselectIf_id]
      exact hb b0 hb0
  | some target =>
    rw [setSelectedCredential_eq_some s u c target hfind]
    refine ⟨?_, ?_⟩
    · show List.Pairwise _
        (((s.userCredentials.map (MemStorage.unselectIf u)).map
          (MemStorage.flipAt target.id _)).map _)
      rw [map_id_flipAt target.id { target with isSelected := true } _ rfl,
        map_id_unselectIf]
      exact hp
    · intro b hbm
      obtain ⟨b1, hb1, rfl⟩ := List.mem_map.mp hbm
      obtain ⟨b0, hb0, rfl⟩ := List.mem_map.mp hb1
      rw [flipAt_id target.id { target with isSelected := true } _ rfl, unselectIf_id]
      exact hb b0 hb0

lemma removeCredentialFromUser_eq (s : Store) (u c : Nat) :
    MemStorage.removeCredentialFromUser s u c =
      if (s.userCredentials.filter (fun uc => uc.userId == u && uc.credentialId == c)).isEmpty
      then (false, s)
      else (true, { s with userCredentials := s.userCredentials.filter (fun uc => !(uc.userId == u && uc.credentialId == c)) }) := rfl

lemma removeCredentialFromUser_snd (s : Store) (u c : Nat) :
    (MemStorage.removeCredentialFromUser s u c).2 = s ∨
    (MemStorage.removeCredentialFromUser s u c).2 =
      { s with userCredentials := s.userCredentials.filter (fun uc => !(uc.userId == u && uc.credentialId == c)) } := by
  rw [removeCredentialFromUser_eq]
  split
  · exact Or.inl rfl
  · exact Or.inr rfl

lemma bindingIdsOk_remove (s : Store) (u c : Nat) (h : BindingIdsOk s) :
    BindingIdsOk (MemStorage.removeCredentialFromUser s u c).2 := by
  obtain ⟨hp, hb⟩ := h
  rcases removeCredentialFromUser_snd s u c with heq | heq
  · rw [heq]
    exact ⟨hp, hb⟩
  · rw [heq]
    refine ⟨?_, ?_⟩
    · exact hp.sublist (List.Sublist.map _ (List.filter_sublist _))
    · intro b hbm
      exact hb b (List.mem_filter.mp hbm).1

lemma selCount_remove_le (s : Store) (u u' c : Nat) :
    selCount u (MemStorage.removeCredentialFromUser s u' c).2 ≤ selCount u s := by
  rcases removeCredentialFromUser_snd s u' c with heq | heq
  · rw [heq]
  · rw [heq]
    unfold selCount
    exact List.Sublist.countP_le _ (List.filter_sublist _)

lemma bindingIdsOk_add (s : Store) (ins : InsertUserCredential) (h : BindingIdsOk s) :
    BindingIdsOk (MemStorage.addCredentialToUser s ins).2 := by
  obtain ⟨hp, hb⟩ := h
  unfold MemStorage.addCredentialToUser
  refine ⟨?_, ?_⟩
  · show List.Pairwise _ ((s.userCredentials ++ [_]).map _)
    rw [List.map_append]
    rw [List.pairwise_append]
    refine ⟨hp, List.pairwise_singleton _ _, ?_⟩
    intro a ham b hbm
    obtain ⟨a0, ha0, rfl⟩ := List.mem_map.mp ham
    simp only [List.map_cons, List.map_nil, List.mem_singleton] at hbm
    rw [hbm]
    exact hb a0 ha0
  · intro b hbm
    rw [List.mem_append] at hbm
    rcases hbm with hbm | hbm
    · exact Nat.lt_succ_of_lt (hb b hbm)
    · simp only [List.mem_singleton] at hbm
      rw [hbm]
      exact Nat.lt_succ_self _

lemma addCredentialToUser_snd_userCredentials (s : Store) (ins : InsertUserCredential) :
    (MemStorage.addCredentialToUser s ins).2.userCredentials =
      s.userCredentials ++ [(MemStorage.addCredentialToUser s ins).1] := rfl

lemma addCredentialToUser_fst_userId (s : Store) (ins : InsertUserCredential) :
    (MemStorage.addCredentialToUser s ins).1.userId = ins.userId := rfl

lemma selCount_add_other (s : Store) (u : Nat) (ins : InsertUserCredential)
    (hne : ins.userId ≠ u) :
    selCount u (MemStorage.addCredentialToUser s ins).2 = selCount u s := by
  unfold selCount
  rw [addCredentialToUser_snd_userCredentials, List.countP_append]
  have hz : selectedFor u (MemStorage.addCredentialToUser s ins).1 = false := by
    unfold selectedFor
    rw [addCredentialToUser_fst_userId]
    have hf : (ins.userId == u) = false := beq_eq_false_iff_ne.mpr hne
    rw [hf]
    rfl
  simp [hz]

/-! ### Case analysis of the verify route -/

lemma verifyCredential_cases (s : Store) (u : Nat) (un pw : String) :
    ((Routes.verifyCredential s u un pw).2 = s ∧
      ((Routes.verifyCredential s u un pw).1).isOk = false) ∨
    (∃ credential obsolete,
      MemStorage.getCredentialByUsername s un = some credential ∧
      pw = credential.password ∧
      Routes.verifyCredential s u un pw =
        (Routes.VerifyResult.ok credential obsolete,
         (MemStorage.setSelectedCredential (MemStorage.addCredentialToUser s { userId := u, credentialId := credential.id, isSelected := true }).2 u credential.id).2)) := by
  unfold Routes.verifyCredential
  split
  · exact Or.inl ⟨rfl, rfl⟩
  · split
    · exact Or.inl ⟨rfl, rfl⟩
    · next credential heq =>
      split
      · exact Or.inl ⟨rfl, rfl⟩
      · next hpw =>
        split
        · exact Or.inl ⟨rfl, rfl⟩
        · next userCreds hok =>
          split
          · exact Or.inl ⟨rfl, rfl⟩
          · split
            · exact Or.inl ⟨rfl, rfl⟩
            · next obsolete hobs =>
              exact Or.inr ⟨credential, obsolete, heq, not_ne_iff.mp hpw, rfl⟩

/-- Each resolution-engine operation preserves id well-formedness and the
at-most-one-selected property for every user. -/
lemma resolutionInv_preserved (s : Store) (op : ResolutionOp)
    (h : BindingIdsOk s ∧ ∀ v, selCount v s ≤ 1) :
    BindingIdsOk (applyResolutionOp s op) ∧
      ∀ v, selCount v (applyResolutionOp s op) ≤ 1 := by
  obtain ⟨hids, hcnt⟩ := h
  cases op with
  | select u' c =>
    simp only [applyResolutionOp]
    refine ⟨bindingIdsOk_setSelected s u' c hids, fun v => ?_⟩
    by_cases hv : v = u'
    · subst hv
      exact selCount_setSelected_self s v c hids.1
    · exact Nat.le_trans (selCount_setSelected_other s v u' c hv) (hcnt v)
  | remove u' c =>
    simp only [applyResolutionOp]
    exact ⟨bindingIdsOk_remove s u' c hids,
      fun v => Nat.le_trans (selCount_remove_le s v u' c) (hcnt v)⟩
  | verifyAcquire u₀ un pw =>
    simp only [applyResolutionOp]
    rcases verifyCredential_cases s u₀ un pw with ⟨heq, _⟩ | ⟨credential, obsolete, _, _, heq⟩
    · rw [heq]
      exact ⟨hids, hcnt⟩
    · have h2 : (Routes.verifyCredential s u₀ un pw).2 =
          (MemStorage.setSelectedCredential (MemStorage.addCredentialToUser s { userId := u₀, credentialId := credential.id, isSelected := true }).2 u₀ credential.id).2 := by
        rw [heq]
      rw [h2]
      have hids1 : BindingIdsOk
          (MemStorage.addCredentialToUser s { userId := u₀, credentialId := credential.id, isSelected := true }).2 :=
        bindingIdsOk_add s _ hids
      refine ⟨bindingIdsOk_setSelected _ _ _ hids1, fun v => ?_⟩
      by_cases hv : v = u₀
      · subst hv
        exact selCount_setSelected_self _ v credential.id hids1.1
      · refine Nat.le_trans (selCount_setSelected_other _ v u₀ credential.id hv) ?_
        rw [selCount_add_other s v _ (show u₀ ≠ v from Ne.symm hv)]
        exact hcnt v

/-- **C1** (selection exclusivity invariant): for every user, after any
sequence of `verifyAndAcquire` (the `/api/credentials/verify` flow of
`addCredentialToUser` with `isSelected = true` followed by
`setSelectedCredential`), `selectCredential` (`setSelectedCredential`) and
`removeCredential` (`removeCredentialFromUser`) operations starting from
the seeded `MemStorage` state, at most one user-credential binding
belonging to that user has `isSelected = true`. -/
theorem selection_exclusivity_invariant (ops : List ResolutionOp) (u : Nat) :
    selCount u (ops.foldl applyResolutionOp memInitialStore) ≤ 1 := by
  have hempty : memInitialStore.userCredentials = [] := rfl
  have hinit : BindingIdsOk memInitialStore ∧ ∀ v, selCount v memInitialStore ≤ 1 := by
    refine ⟨⟨?_, ?_⟩, ?_⟩
    · rw [hempty]
      exact List.Pairwise.nil
    · intro b hb
      rw [hempty] at hb
      cases hb
    · intro v
      unfold selCount
      rw [hempty]
      simp
  suffices hstep : ∀ s, (BindingIdsOk s ∧ ∀ v, selCount v s ≤ 1) →
      BindingIdsOk (ops.foldl applyResolutionOp s) ∧
        ∀ v, selCount v (ops.foldl applyResolutionOp s) ≤ 1 by
    exact (hstep memInitialStore hinit).2 u
  induction ops with
  | nil => exact fun s hs => hs
  | cons op rest ih =>
    intro s hs
    exact ih (applyResolutionOp s op) (resolutionInv_preserved s op hs)

/-- **C4 counterexample**: calling `setSelectedCredential` for a credential
the user does not own is claimed to leave every binding of the user
unchanged, but on `demoStore` (user 1 owns only credential 10, selected)
the failed call `setSelectedCredential demoStore 1 99` returns `undefined`
yet mutates the binding table: the previously selected binding is
unselected. -/
theorem setSelectedCredential_mutates_on_unknown_credential :
    (MemStorage.setSelectedCredential demoStore 1 99).1 = none ∧
    (MemStorage.setSelectedCredential demoStore 1 99).2.userCredentials ≠
      demoStore.userCredentials ∧
    selectedFor 1 { id := 1, userId := 1, credentialId := 10, isSelected := true } = true ∧
    { id := 1, userId := 1, credentialId := 10, isSelected := true } ∈ demoStore.userCredentials ∧
    selCount 1 (MemStorage.setSelectedCredential demoStore 1 99).2 = 0 := by
  refine ⟨by decide, by decide, by decide, by decide, by decide⟩

/-- **C4 (amended)**: when the user has no binding to the requested
credential, `setSelectedCredential` returns `undefined` (`NotOwned`), but
only after unselecting every binding of that user: the resulting binding
table is the original with each of the user's bindings mapped to its
unselected copy (ids, credential references and other users' bindings
intact), so a binding of the user that was selected before the failed call
is no longer selected after it. -/
theorem setSelectedCredential_not_owned_unselects_all (s : Store) (u c : Nat)
    (h : ∀ b ∈ s.userCredentials, b.userId = u → b.credentialId ≠ c) :
    (MemStorage.setSelectedCredential s u c).1 = none ∧
    (MemStorage.setSelectedCredential s u c).2.userCredentials =
      s.userCredentials.map (MemStorage.unselectIf u) ∧
    ∀ b ∈ (MemStorage.setSelectedCredential s u c).2.userCredentials,
      b.userId = u → b.isSelected = false := by
  have hfind : (s.userCredentials.filter (fun uc => uc.userId == u)).find?
      (fun uc => uc.credentialId == c) = none := by
    rw [List.find?_eq_none]
    intro x hx hbeq
    have hmem := List.mem_filter.mp hx
    exact h x hmem.1 (eq_of_beq hmem.2) (eq_of_beq hbeq)
  rw [setSelectedCredential_eq_none s u c hfind]
  refine ⟨rfl, rfl, ?_⟩
  intro b hb hbu
  obtain ⟨b0, _, rfl⟩ := List.mem_map.mp hb
  rw [unselectIf_userId] at hbu
  unfold MemStorage.unselectIf
  have hb0u : (b0.userId == u) = true := beq_iff_eq.mpr hbu
  rw [hb0u]
  rfl

/-- **C4 (amended) witness**: concrete run of the amended statement on
`demoStore` with the unowned credential id 99. -/
theorem setSelectedCredential_not_owned_unselects_all_witness :
    (MemStorage.setSelectedCredential demoStore 1 99).1 = none ∧
    (MemStorage.setSelectedCredential demoStore 1 99).2.userCredentials =
      demoStore.userCredentials.map (MemStorage.unselectIf 1) :=
  ⟨(setSelectedCredential_not_owned_unselects_all demoStore 1 99 (by decide)).1,
   (setSelectedCredential_not_owned_unselects_all demoStore 1 99 (by decide)).2.1⟩

/-- **C8** (removal clears selection without side effects): if the user
holds a binding to credential `c`, `removeCredentialFromUser` returns
`true` and the resulting binding table is the original with exactly the
`(userId, c)` bindings removed (every other binding is untouched); and if
every selected binding of the user referenced `c` (in particular when the
removed binding was the selected one), afterwards no binding of the user
is selected — no replacement is auto-selected. -/
theorem remove_credential_clears_selection (s : Store) (u c : Nat)
    (h : ∃ b ∈ s.userCredentials, b.userId = u ∧ b.credentialId = c) :
    (MemStorage.removeCredentialFromUser s u c).1 = true ∧
    (MemStorage.removeCredentialFromUser s u c).2.userCredentials =
      s.userCredentials.filter (fun b => !(b.userId == u && b.credentialId == c)) ∧
    ((∀ b ∈ s.userCredentials, selectedFor u b = true → b.credentialId = c) →
      ∀ b ∈ (MemStorage.removeCredentialFromUser s u c).2.userCredentials,
        selectedFor u b = false) := by
  obtain ⟨b0, hb0, hbu, hbc⟩ := h
  have hne : (s.userCredentials.filter
      (fun uc => uc.userId == u && uc.credentialId == c)).isEmpty = false := by
    have hb0f : b0 ∈ s.userCredentials.filter
        (fun uc => uc.userId == u && uc.credentialId == c) := by
      rw [List.mem_filter]
      refine ⟨hb0, ?_⟩
      rw [hbu, hbc]
      simp
    cases hfe : (s.userCredentials.filter
        (fun uc => uc.userId == u && uc.credentialId == c)).isEmpty with
    | false => rfl
    | true =>
      rw [List.isEmpty_iff] at hfe
      rw [hfe] at hb0f
      cases hb0f
  rw [removeCredentialFromUser_eq, hne]
  refine ⟨rfl, rfl, ?_⟩
  intro hsel b hb
  have hmem := List.mem_filter.mp hb
  cases hs : selectedFor u b with
  | false => rfl
  | true =>
    exfalso
    have hcid : b.credentialId = c := hsel b hmem.1 hs
    have huid : (b.userId == u) = true := ((Bool.and_eq_true _ _).mp hs).1
    have hkept := hmem.2
    rw [Bool.not_eq_eq_eq_not] at hkept
    simp only [Bool.not_true] at hkept
    rw [huid, beq_iff_eq.mpr hcid] at hkept
    simp at hkept

/-- **C8 witness**: removing user 1's selected binding to credential 10 in
`demoStore`. -/
theorem remove_credential_clears_selection_witness :
    (MemStorage.removeCredentialFromUser demoStore 1 10).1 = true ∧
    (MemStorage.removeCredentialFromUser demoStore 1 10).2.userCredentials =
      demoStore.userCredentials.filter (fun b => !(b.userId == 1 && b.credentialId == 10)) :=
  ⟨(remove_credential_clears_selection demoStore 1 10 (by decide)).1,
   (remove_credential_clears_selection demoStore 1 10 (by decide)).2.1⟩

/-! ### The binding-to-credential join -/

lemma getCredential_id (s : Store) (i : Nat) (c : Credential)
    (h : MemStorage.getCredential s i = some c) : c.id = i := by
  unfold MemStorage.getCredential at h
  have hp := List.find?_some h
  exact eq_of_beq hp

lemma joinBindings_error_of_dangling (s : Store) (l : List UserCredential)
    (h : ∃ uc ∈ l, MemStorage.getCredential s uc.credentialId = none) :
    ∃ msg, MemStorage.joinBindings s l = Except.error msg := by
  induction l with
  | nil =>
    obtain ⟨uc, h1, _⟩ := h
    cases h1
  | cons uc rest ih =>
    unfold MemStorage.joinBindings
    cases hc : MemStorage.getCredential s uc.credentialId with
    | none => exact ⟨_, rfl⟩
    | some c =>
      obtain ⟨uc', hmem, hdang⟩ := h
      rcases List.mem_cons.mp hmem with heq | hmem'
      · rw [heq] at hdang
        rw [hdang] at hc
        cases hc
      · obtain ⟨msg, hmsg⟩ := ih ⟨uc', hmem', hdang⟩
        rw [hmsg]
        exact ⟨msg, rfl⟩

lemma joinBindings_ok_eq (s : Store) (l : List UserCredential)
    (r : List CredWithSelected) (h : MemStorage.joinBindings s l = Except.ok r) :
    r = l.filterMap (fun uc => (MemStorage.getCredential s uc.credentialId).map
      (fun c => { cred := c, isSelected := uc.isSelected })) := by
  induction l generalizing r with
  | nil =>
    unfold MemStorage.joinBindings at h
    cases h
    rfl
  | cons uc rest ih =>
    unfold MemStorage.joinBindings at h
    cases hc : MemStorage.getCredential s uc.credentialId with
    | none =>
      rw [hc] at h
      cases h
    | some c =>
      rw [hc] at h
      cases hrest : MemStorage.joinBindings s rest with
      | error e =>
        rw [hrest] at h
        cases h
      | ok tail =>
        rw [hrest] at h
        cases h
        simp [List.filterMap_cons, hc, ih tail hrest]

/-- **C5 counterexample**: the claim covers `DatabaseStorage.getUserCredentials`
too, but on `danglingStore` (user 1 bound to the nonexistent credential 42)
that implementation does not fail: it returns a result that silently omits
the dangling binding. -/
theorem databaseStorage_getUserCredentials_silently_omits_dangling :
    danglingStore.userCredentials =
      [{ id := 1, userId := 1, credentialId := 42, isSelected := false }] ∧
    MemStorage.getCredential danglingStore 42 = none ∧
    DatabaseStorage.getUserCredentials danglingStore 1 = [] := by
  refine ⟨by decide, by decide, by decide⟩

/-- **C5 (amended)**: on a store where some binding of the user references
a credential id absent from the credential store,
`MemStorage.getUserCredentials` throws; `DatabaseStorage.getUserCredentials`
never throws — it returns the join of exactly the non-dangling bindings,
silently omitting the dangling ones. -/
theorem getUserCredentials_integrity_behavior (s : Store) (u : Nat)
    (h : ∃ b ∈ s.userCredentials, b.userId = u ∧
      MemStorage.getCredential s b.credentialId = none) :
    exceptThrew (MemStorage.getUserCredentials s u) = true ∧
    (∀ b ∈ s.userCredentials, b.userId = u →
      ∀ c, MemStorage.getCredential s b.credentialId = some c →
        { cred := c, isSelected := b.isSelected } ∈ DatabaseStorage.getUserCredentials s u) ∧
    (∀ jc ∈ DatabaseStorage.getUserCredentials s u,
      ∃ b ∈ s.userCredentials, b.userId = u ∧
        MemStorage.getCredential s b.credentialId = some jc.cred ∧
        jc.isSelected = b.isSelected) := by
  refine ⟨?_, ?_, ?_⟩
  · obtain ⟨b, hbm, hbu, hdang⟩ := h
    have hbf : b ∈ s.userCredentials.filter (fun uc => uc.userId == u) := by
      rw [List.mem_filter]
      exact ⟨hbm, beq_iff_eq.mpr hbu⟩
    obtain ⟨msg, hmsg⟩ := joinBindings_error_of_dangling s _ ⟨b, hbf, hdang⟩
    unfold MemStorage.getUserCredentials
    rw [hmsg]
    rfl
  · intro b hbm hbu c hc
    unfold DatabaseStorage.getUserCredentials
    rw [List.mem_filterMap]
    refine ⟨b, ?_, ?_⟩
    · rw [List.mem_filter]
      exact ⟨hbm, beq_iff_eq.mpr hbu⟩
    · rw [hc]
      rfl
  · intro jc hjc
    unfold DatabaseStorage.getUserCredentials at hjc
    rw [List.mem_filterMap] at hjc
    obtain ⟨b, hbf, hfb⟩ := hjc
    have hmem := List.mem_filter.mp hbf
    obtain ⟨c, hc, hceq⟩ := Option.map_eq_some'.mp hfb
    refine ⟨b, hmem.1, eq_of_beq hmem.2, ?_, ?_⟩
    · rw [hc, ← hceq]
    · rw [← hceq]

/-- **C5 (amended) witness**: concrete run on `danglingStore`. -/
theorem getUserCredentials_integrity_behavior_witness :
    (∃ b ∈ danglingStore.userCredentials, b.userId = 1 ∧
      MemStorage.getCredential danglingStore b.credentialId = none) ∧
    exceptThrew (MemStorage.getUserCredentials danglingStore 1) = true :=
  ⟨by decide, (getUserCredentials_integrity_behavior danglingStore 1 (by decide)).1⟩

/-! ### Obsolescence -/

lemma find?_eq_some_split {α : Type} (p : α → Bool) :
    ∀ {l : List α} {a : α}, l.find? p = some a →
      p a = true ∧ ∃ pre post, l = pre ++ a :: post ∧ ∀ x ∈ pre, p x = false := by
  intro l
  induction l with
  | nil =>
    intro a h
    cases h
  | cons x rest ih =>
    intro a h
    rw [List.find?_cons] at h
    cases hp : p x with
    | true =>
      rw [hp] at h
      cases h
      exact ⟨hp, [], rest, rfl, by intro y hy; cases hy⟩
    | false =>
      rw [hp] at h
      obtain ⟨hpa, pre, post, hsplit, hpre⟩ := ih h
      refine ⟨hpa, x :: pre, post, by rw [hsplit]; rfl, ?_⟩
      intro y hy
      rcases List.mem_cons.mp hy with rfl | hy'
      · exact hp
      · exact hpre y hy'

/-- The code's obsolescence test is exactly strict dominance of the new
credential over the existing one. -/
lemma obsoletePred_iff (newCredential : Credential) (existingCred : CredWithSelected) :
    (jsLe existingCred.cred.securityLevel newCredential.securityLevel &&
     jsLe existingCred.cred.medicalLevel newCredential.medicalLevel &&
     jsLe existingCred.cred.adminLevel newCredential.adminLevel &&
     (jsLt existingCred.cred.securityLevel newCredential.securityLevel ||
      jsLt existingCred.cred.medicalLevel newCredential.medicalLevel ||
      jsLt existingCred.cred.adminLevel newCredential.adminLevel)) = true ↔
    StrictlyDominates newCredential.levels existingCred.cred.levels := by
  simp [jsLe, jsLt, StrictlyDominates, Dominates, Credential.levels, and_assoc, or_assoc]

lemma checkIfCredentialObsolete_ok (s : Store) (u : Nat) (c : Credential)
    (l : List CredWithSelected) (h : MemStorage.getUserCredentials s u = Except.ok l) :
    MemStorage.checkIfCredentialObsolete s u c =
      Except.ok (l.find? (fun existingCred =>
        jsLe existingCred.cred.securityLevel c.securityLevel &&
        jsLe existingCred.cred.medicalLevel c.medicalLevel &&
        jsLe existingCred.cred.adminLevel c.adminLevel &&
        (jsLt existingCred.cred.securityLevel c.securityLevel ||
         jsLt existingCred.cred.medicalLevel c.medicalLevel ||
         jsLt existingCred.cred.adminLevel c.adminLevel))) := by
  unfold MemStorage.checkIfCredentialObsolete
  rw [h]

/-- **C3** (obsolescence correctness): when the user's joined credential
list is `l`, both implementations of `checkIfCredentialObsolete` agree, the
result is empty exactly when no bound credential is strictly dominated by
the new credential (so an incomparable bound credential is never reported),
and a reported credential is the first strictly dominated one in binding
iteration order. -/
theorem obsolescence_correctness (s : Store) (u : Nat) (c : Credential)
    (l : List CredWithSelected) (h : MemStorage.getUserCredentials s u = Except.ok l) :
    MemStorage.checkIfCredentialObsolete s u c =
      Except.ok (DatabaseStorage.checkIfCredentialObsolete s u c) ∧
    (MemStorage.checkIfCredentialObsolete s u c = Except.ok none ↔
      ∀ jc ∈ l, ¬ StrictlyDominates c.levels jc.cred.levels) ∧
    (∀ jc, MemStorage.checkIfCredentialObsolete s u c = Except.ok (some jc) →
      StrictlyDominates c.levels jc.cred.levels ∧
      ∃ pre post, l = pre ++ jc :: post ∧
        ∀ x ∈ pre, ¬ StrictlyDominates c.levels x.cred.levels) := by
  have hjoin := h
  unfold MemStorage.getUserCredentials at hjoin
  have hdbl : DatabaseStorage.getUserCredentials s u = l := by
    unfold DatabaseStorage.getUserCredentials
    exact (joinBindings_ok_eq s _ l hjoin).symm
  rw [checkIfCredentialObsolete_ok s u c l h]
  have hdb : DatabaseStorage.checkIfCredentialObsolete s u c =
      l.find? (fun existingCred =>
        jsLe existingCred.cred.securityLevel c.securityLevel &&
        jsLe existingCred.cred.medicalLevel c.medicalLevel &&
        jsLe existingCred.cred.adminLevel c.adminLevel &&
        (jsLt existingCred.cred.securityLevel c.securityLevel ||
         jsLt existingCred.cred.medicalLevel c.medicalLevel ||
         jsLt existingCred.cred.adminLevel c.adminLevel)) := by
    unfold DatabaseStorage.checkIfCredentialObsolete
    rw [hdbl]
    exact rfl
  refine ⟨by rw [hdb], ?_, ?_⟩
  · constructor
    · intro hok jc hjc hsd
      injection hok with hfind
      rw [List.find?_eq_none] at hfind
      exact hfind jc hjc ((obsoletePred_iff c jc).mpr hsd)
    · intro hall
      have hfind : l.find? (fun existingCred =>
          jsLe existingCred.cred.securityLevel c.securityLevel &&
          jsLe existingCred.cred.medicalLevel c.medicalLevel &&
          jsLe existingCred.cred.adminLevel c.adminLevel &&
          (jsLt existingCred.cred.securityLevel c.securityLevel ||
           jsLt existingCred.cred.medicalLevel c.medicalLevel ||
           jsLt existingCred.cred.adminLevel c.adminLevel)) = none := by
        rw [List.find?_eq_none]
        intro x hx hpx
        exact hall x hx ((obsoletePred_iff c x).mp hpx)
      rw [hfind]
  · intro jc hok
    injection hok with hfind
    obtain ⟨hpa, pre, post, hsplit, hpre⟩ := find?_eq_some_split _ hfind
    refine ⟨(obsoletePred_iff c jc).mp hpa, pre, post, hsplit, ?_⟩
    intro x hx hsd
    have hfalse := hpre x hx
    have htrue := (obsoletePred_iff c x).mpr hsd
    rw [hfalse] at htrue
    cases htrue

/-- **C3 witness**: the spec's two concrete examples on `demoStore`: user 1
holds (1,0,0), acquiring (2,0,0) reports it obsolete; user 2 holds
(0,2,0), acquiring (2,0,0) reports nothing (incomparable). -/
theorem obsolescence_correctness_witness :
    MemStorage.getUserCredentials demoStore 1 =
      Except.ok [{ cred := credLow, isSelected := true }] ∧
    MemStorage.checkIfCredentialObsolete demoStore 1 credHigh =
      Except.ok (DatabaseStorage.checkIfCredentialObsolete demoStore 1 credHigh) ∧
    DatabaseStorage.checkIfCredentialObsolete demoStore 1 credHigh =
      some { cred := credLow, isSelected := true } ∧
    MemStorage.checkIfCredentialObsolete demoStore 2 credHigh = Except.ok none :=
  ⟨by rfl,
   (obsolescence_correctness demoStore 1 credHigh
     [{ cred := credLow, isSelected := true }] (by rfl)).1,
   by rfl, by rfl⟩

/-! ### The document access decision -/

/-- **C2** (access decision): for an authenticated request for an existing
document whose credential join succeeds, (1) no selected credential yields
the `noCredentialSelected` denial whose diagnostic carries exactly the
document's required levels (and no current levels); (2) a selected
credential whose vector does not dominate the document's (null axes as 0)
yields the `insufficientPermissions` denial carrying both the required and
the current levels; (3) a dominating selected credential yields the
document unchanged. -/
theorem document_access_decision (s : Store) (u docId : Nat) (document : Document)
    (hdoc : MemStorage.getDocument s docId = some document)
    (l : List CredWithSelected)
    (hl : MemStorage.getUserCredentials s u = Except.ok l) :
    (l.find? (fun cred => cred.isSelected) = none →
      Routes.getDocumentById s u docId =
        Routes.DocumentResult.noCredentialSelected document.levels) ∧
    (∀ sel, l.find? (fun cred => cred.isSelected) = some sel →
      (¬ Dominates sel.cred.levels document.levels →
        Routes.getDocumentById s u docId =
          Routes.DocumentResult.insufficientPermissions document.levels sel.cred.levels) ∧
      (Dominates sel.cred.levels document.levels →
        Routes.getDocumentById s u docId = Routes.DocumentResult.ok document)) := by
  have heq : Routes.getDocumentById s u docId =
      (match l.find? (fun cred => cred.isSelected) with
      | none => Routes.DocumentResult.noCredentialSelected { security := document.securityLevel, medical := document.medicalLevel, admin := document.adminLevel }
      | some selectedCredential =>
        if !jsLe document.securityLevel selectedCredential.cred.securityLevel || !jsLe document.medicalLevel selectedCredential.cred.medicalLevel || !jsLe document.adminLevel selectedCredential.cred.adminLevel then
          Routes.DocumentResult.insufficientPermissions { security := document.securityLevel, medical := document.medicalLevel, admin := document.adminLevel } { security := selectedCredential.cred.securityLevel, medical := selectedCredential.cred.medicalLevel, admin := selectedCredential.cred.adminLevel }
        else Routes.DocumentResult.ok document) := by
    unfold Routes.getDocumentById
    rw [hdoc, hl]
  rw [heq]
  refine ⟨?_, ?_⟩
  · intro hfind
    rw [hfind]
  · intro sel hfind
    rw [hfind]
    dsimp only
    constructor
    · intro hnd
      cases e1 : jsLe document.securityLevel sel.cred.securityLevel with
      | false => exact rfl
      | true =>
        cases e2 : jsLe document.medicalLevel sel.cred.medicalLevel with
        | false => exact rfl
        | true =>
          cases e3 : jsLe document.adminLevel sel.cred.adminLevel with
          | false => exact rfl
          | true =>
            exact absurd ⟨of_decide_eq_true e1, of_decide_eq_true e2, of_decide_eq_true e3⟩ hnd
    · intro hd
      obtain ⟨h1, h2, h3⟩ := hd
      rw [show jsLe document.securityLevel sel.cred.securityLevel = true from decide_eq_true h1,
        show jsLe document.medicalLevel sel.cred.medicalLevel = true from decide_eq_true h2,
        show jsLe document.adminLevel sel.cred.adminLevel = true from decide_eq_true h3]
      exact rfl

/-- **C2 witness**: the spec's denial-shape example on `demoStore`:
document 1 requires (3,0,0), user 1's selected credential grants (1,0,0),
so the route answers the insufficient-permissions denial carrying both
vectors. -/
theorem document_access_decision_witness :
    MemStorage.getDocument demoStore 1 = some docA ∧
    MemStorage.getUserCredentials demoStore 1 =
      Except.ok [{ cred := credLow, isSelected := true }] ∧
    Routes.getDocumentById demoStore 1 1 =
      Routes.DocumentResult.insufficientPermissions docA.levels credLow.levels := by
  refine ⟨by rfl, by rfl, ?_⟩
  exact ((document_access_decision demoStore 1 1 docA (by rfl)
    [{ cred := credLow, isSelected := true }] (by rfl)).2
    { cred := credLow, isSelected := true } (by rfl)).1 (by decide)

/-! ### The verify route -/

lemma joinBindings_ok_of_no_dangling (s : Store) (l : List UserCredential)
    (h : ∀ uc ∈ l, ∃ c, MemStorage.getCredential s uc.credentialId = some c) :
    ∃ r, MemStorage.joinBindings s l = Except.ok r := by
  induction l with
  | nil => exact ⟨[], rfl⟩
  | cons uc rest ih =>
    obtain ⟨c, hc⟩ := h uc (List.mem_cons_self uc rest)
    obtain ⟨r, hr⟩ := ih (fun x hx => h x (List.mem_cons_of_mem uc hx))
    refine ⟨{ cred := c, isSelected := uc.isSelected } :: r, ?_⟩
    unfold MemStorage.joinBindings
    rw [hc]
    dsimp only
    rw [hr]

/-- **C6** (duplicate-acquisition rejection): when the submitted username
resolves to credential `cred`, the password matches, every binding of the
user resolves (no storage corruption), and the user already holds a binding
to `cred`, the verify route answers `AlreadyAcquired` (409) and leaves the
store — bindings, selection, everything — unchanged. -/
theorem duplicate_acquisition_rejected (s : Store) (u : Nat) (uname pw : String)
    (cred : Credential)
    (hun : uname ≠ "") (hpwne : pw ≠ "")
    (hfind : MemStorage.getCredentialByUsername s uname = some cred)
    (hpw : cred.password = pw)
    (hint : ∀ b ∈ s.userCredentials, b.userId = u →
      (MemStorage.getCredential s b.credentialId).isSome = true)
    (hheld : ∃ b ∈ s.userCredentials, b.userId = u ∧ b.credentialId = cred.id) :
    Routes.verifyCredential s u uname pw =
      (Routes.VerifyResult.alreadyAcquired cred, s) := by
  have hok : ∃ r, MemStorage.getUserCredentials s u = Except.ok r := by
    unfold MemStorage.getUserCredentials
    refine joinBindings_ok_of_no_dangling s _ ?_
    intro uc huc
    have hm := List.mem_filter.mp huc
    exact Option.isSome_iff_exists.mp (hint uc hm.1 (eq_of_beq hm.2))
  unfold Routes.verifyCredential
  split
  · next hcond =>
    exfalso
    cases hu : (uname == "") with
    | true => exact hun (eq_of_beq hu)
    | false =>
      rw [hu, Bool.false_or] at hcond
      exact hpwne (eq_of_beq hcond)
  · split
    · next hnone =>
      rw [hfind] at hnone
      cases hnone
    · next credential heq =>
      rw [hfind] at heq
      injection heq with he
      subst he
      split
      · next hne => exact absurd hpw.symm hne
      · next hnn =>
        split
        · next e herr =>
          obtain ⟨r, hr⟩ := hok
          rw [hr] at herr
          cases herr
        · next r hr =>
          have hany : (r.any fun c0 => c0.cred.id == cred.id) = true := by
            have hr' := hr
            unfold MemStorage.getUserCredentials at hr'
            have hreq := joinBindings_ok_eq s _ r hr'
            obtain ⟨b, hbm, hbu, hbc⟩ := hheld
            obtain ⟨c', hc'⟩ := Option.isSome_iff_exists.mp (hint b hbm hbu)
            have hbf : b ∈ s.userCredentials.filter (fun uc => uc.userId == u) :=
              List.mem_filter.mpr ⟨hbm, beq_iff_eq.mpr hbu⟩
            have hmem : ({ cred := c', isSelected := b.isSelected } : CredWithSelected) ∈ r := by
              rw [hreq, List.mem_filterMap]
              refine ⟨b, hbf, ?_⟩
              rw [hc']
              rfl
            have hcid : c'.id = cred.id := by
              rw [getCredential_id s _ _ hc', hbc]
            rw [List.any_eq_true]
            exact ⟨_, hmem, beq_iff_eq.mpr hcid⟩
          split
          · rfl
          · next hnot => exact absurd hany hnot

/-- **C6 witness**: user 1 of `demoStore` already holds `credLow`
(username "alpha", password "a"); re-verifying it answers 409 and leaves
the store unchanged. -/
theorem duplicate_acquisition_rejected_witness :
    Routes.verifyCredential demoStore 1 "alpha" "a" =
      (Routes.VerifyResult.alreadyAcquired credLow, demoStore) :=
  duplicate_acquisition_rejected demoStore 1 "alpha" "a" credLow
    (by decide) (by decide) (by rfl) (by rfl) (by decide) (by decide)

/-! ### Duplicate usernames -/

lemma map_credentialId_unselectIf (u : Nat) (l : List UserCredential) :
    (l.map (MemStorage.unselectIf u)).map (fun b => b.credentialId) =
      l.map (fun b => b.credentialId) := by
  rw [List.map_map]
  exact List.map_congr_left (fun b _ => unselectIf_credentialId u b)

/-- `setSelectedCredential` never changes which credentials the bindings
reference (given well-formed binding ids). -/
lemma setSelected_map_credentialId (s : Store) (u c : Nat)
    (hnd : List.Pairwise (· < ·) (s.userCredentials.map (fun x => x.id))) :
    ((MemStorage.setSelectedCredential s u c).2).userCredentials.map (fun x => x.credentialId) =
      s.userCredentials.map (fun x => x.credentialId) := by
  cases hfind : (s.userCredentials.filter (fun uc => uc.userId == u)).find?
      (fun uc => uc.credentialId == c) with
  | none =>
    rw [setSelectedCredential_eq_none s u c hfind]
    exact map_credentialId_unselectIf u s.userCredentials
  | some target =>
    rw [setSelectedCredential_eq_some s u c target hfind]
    rw [List.map_map, List.map_map]
    apply List.map_congr_left
    intro x hx
    show (MemStorage.flipAt target.id { target with isSelected := true }
      (MemStorage.unselectIf u x)).credentialId = x.credentialId
    unfold MemStorage.flipAt
    split
    · next hid =>
      rw [unselectIf_id] at hid
      have htm : target ∈ s.userCredentials :=
        (List.mem_filter.mp (List.mem_of_find?_eq_some hfind)).1
      have hndu : (s.userCredentials.map (fun x => x.id)).Nodup :=
        hnd.imp (fun hab => Nat.ne_of_lt hab)
      have hxt : x = target :=
        List.inj_on_of_nodup_map hndu hx htm (eq_of_beq hid)
      rw [hxt]
    · next =>
      exact unselectIf_credentialId u x

lemma add_map_credentialId (s : Store) (ins : InsertUserCredential) :
    ((MemStorage.addCredentialToUser s ins).2).userCredentials.map (fun x => x.credentialId) =
      s.userCredentials.map (fun x => x.credentialId) ++ [ins.credentialId] := by
  rw [addCredentialToUser_snd_userCredentials, List.map_append]
  rfl

/-- **C9** (duplicate-username shadowing): credential usernames are not
unique; if `getCredentialByUsername` resolves `uname` to `a` while a
distinct credential `b` in the store has the same username, then (with ids
assigned by the in-memory counter, i.e. strictly increasing in store
order) `a` has the lower id; every verify call for `uname` can bind only
`a.id` (the binding table's referenced credential ids gain at most
`[a.id]`), yields `a` as the 200-response credential whenever it succeeds,
and fails without touching the store whenever the submitted password is
not `a`'s — so `b` is unreachable through verification. -/
theorem duplicate_username_shadowing (s : Store) (uname : String) (a b : Credential)
    (hwf : BindingIdsOk s)
    (hinc : List.Pairwise (· < ·) (s.credentials.map (fun c => c.id)))
    (hfind : MemStorage.getCredentialByUsername s uname = some a)
    (hbm : b ∈ s.credentials) (hbu : b.username = uname) (hne : b.id ≠ a.id) :
    a.id < b.id ∧
    (∀ u pw, ((Routes.verifyCredential s u uname pw).2).userCredentials.map
        (fun x => x.credentialId) = s.userCredentials.map (fun x => x.credentialId) ∨
      ((Routes.verifyCredential s u uname pw).2).userCredentials.map
        (fun x => x.credentialId) =
        s.userCredentials.map (fun x => x.credentialId) ++ [a.id]) ∧
    (∀ u pw c obs, (Routes.verifyCredential s u uname pw).1 =
      Routes.VerifyResult.ok c obs → c = a) ∧
    (∀ u pw, pw ≠ a.password → (Routes.verifyCredential s u uname pw).2 = s) := by
  refine ⟨?_, ?_, ?_, ?_⟩
  · have hfind' := hfind
    unfold MemStorage.getCredentialByUsername at hfind'
    obtain ⟨hpa, pre, post, hsplit, hpre⟩ := find?_eq_some_split _ hfind'
    have hbpost : b ∈ post := by
      have hbm' := hbm
      rw [hsplit] at hbm'
      rcases List.mem_append.mp hbm' with hb1 | hb2
      · exfalso
        have := hpre b hb1
        rw [beq_iff_eq.mpr hbu] at this
        cases this
      · rcases List.mem_cons.mp hb2 with hba | hbp
        · exact absurd (congrArg (fun c => c.id) hba) hne
        · exact hbp
    have hinc' := hinc
    rw [hsplit, List.map_append, List.pairwise_append] at hinc'
    have hpc := hinc'.2.1
    rw [List.map_cons, List.pairwise_cons] at hpc
    exact hpc.1 b.id (List.mem_map.mpr ⟨b, hbpost, rfl⟩)
  · intro u pw
    rcases verifyCredential_cases s u uname pw with ⟨heq, _⟩ | ⟨credential, obsolete, hfc, _, heqp⟩
    · rw [heq]
      exact Or.inl rfl
    · right
      rw [hfind] at hfc
      injection hfc with hca
      subst hca
      have h2 : (Routes.verifyCredential s u uname pw).2 =
          (MemStorage.setSelectedCredential (MemStorage.addCredentialToUser s { userId := u, credentialId := a.id, isSelected := true }).2 u a.id).2 := by
        rw [heqp]
      rw [h2]
      rw [setSelected_map_credentialId _ u a.id (bindingIdsOk_add s _ hwf).1]
      exact add_map_credentialId s _
  · intro u pw c obs h1
    rcases verifyCredential_cases s u uname pw with ⟨_, hno⟩ | ⟨credential, obsolete, hfc, _, heqp⟩
    · rw [h1] at hno
      cases hno
    · rw [hfind] at hfc
      injection hfc with hca
      rw [heqp] at h1
      injection h1 with h1' _
      exact h1'.symm.trans hca.symm
  · intro u pw hpw
    rcases verifyCredential_cases s u uname pw with ⟨heq, _⟩ | ⟨credential, obsolete, hfc, hpweq, _⟩
    · exact heq
    · exfalso
      rw [hfind] at hfc
      injection hfc with hca
      rw [← hca] at hpweq
      exact hpw hpweq

/-- **C9 witness**: in `demoStore`, "alpha" names both `credLow` (id 10)
and `credMed` (id 12); lookup returns `credLow`, and verifying "alpha"
with `credMed`'s password fails, leaving the store unchanged. -/
theorem duplicate_username_shadowing_witness :
    credLow.id < credMed.id ∧
    (Routes.verifyCredential demoStore 3 "alpha" "z").2 = demoStore :=
  ⟨(duplicate_username_shadowing demoStore "alpha" credLow credMed
      (by decide) (by decide) (by rfl) (by decide) (by decide) (by decide)).1,
   (duplicate_username_shadowing demoStore "alpha" credLow credMed
      (by decide) (by decide) (by rfl) (by decide) (by decide) (by decide)).2.2.2
      3 "z" (by decide)⟩

/-! ### The accessible-documents filter -/

/-- With a non-negative supplied level, the `DatabaseStorage` null check
and the raw JS comparison coincide. -/
lemma axis_filter_eq (a : Option Nat) (x : Int) (hx : 0 ≤ x) :
    (a.isNone || (a.getD 0 : Int) ≤ x) = jsLeInt a x := by
  cases a with
  | none => simp [jsLeInt, hx]
  | some v => simp [jsLeInt]

/-- **C7 counterexample**: the claim's example asserts that
`getAccessibleDocuments(2,0,0)` over documents requiring (1,0,0), (3,0,0)
and (0,1,0) returns the first **and third**; the code excludes the third
(its medical requirement 1 exceeds the supplied medical level 0) and
returns exactly the first. -/
theorem accessible_documents_filter_example :
    MemStorage.getAccessibleDocuments filterStore 2 0 0 = [docF1] ∧
    docF3 ∈ filterStore.documents ∧
    docF3 ∉ MemStorage.getAccessibleDocuments filterStore 2 0 0 ∧
    docF3.medicalLevel = some 1 := by
  refine ⟨by decide, by decide, by decide, by decide⟩

/-- **C7 (amended)**: for every document collection and every supplied
clearance vector (non-negative per axis, as clearance vectors are),
`getAccessibleDocuments` returns exactly the documents each of whose
required axes (null counting as 0) is at most the corresponding supplied
axis, independently per axis, preserving store iteration order; both
storage implementations agree. In the spec's example over (1,0,0), (3,0,0)
and (0,1,0) with supplied (2,0,0), exactly the **first** document is
returned (the third fails on the medical axis). -/
theorem accessible_documents_filter_correct (s : Store) (sec med adm : Int)
    (hsec : 0 ≤ sec) (hmed : 0 ≤ med) (hadm : 0 ≤ adm) :
    MemStorage.getAccessibleDocuments s sec med adm =
      DatabaseStorage.getAccessibleDocuments s sec med adm ∧
    (∀ d, d ∈ MemStorage.getAccessibleDocuments s sec med adm ↔
      d ∈ s.documents ∧ (d.securityLevel.getD 0 : Int) ≤ sec ∧
        (d.medicalLevel.getD 0 : Int) ≤ med ∧ (d.adminLevel.getD 0 : Int) ≤ adm) ∧
    (MemStorage.getAccessibleDocuments s sec med adm).Sublist s.documents := by
  refine ⟨?_, ?_, ?_⟩
  · unfold MemStorage.getAccessibleDocuments DatabaseStorage.getAccessibleDocuments
    refine (List.filter_congr ?_).symm
    intro d _
    rw [axis_filter_eq _ _ hsec, axis_filter_eq _ _ hmed, axis_filter_eq _ _ hadm]
  · intro d
    unfold MemStorage.getAccessibleDocuments
    rw [List.mem_filter]
    simp [jsLeInt, and_assoc]
  · unfold MemStorage.getAccessibleDocuments
    exact List.filter_sublist _

/-- **C7 (amended) witness**: the corrected example, instantiating the
amended statement at the concrete store and the supplied vector (2,0,0). -/
theorem accessible_documents_filter_correct_witness :
    MemStorage.getAccessibleDocuments filterStore 2 0 0 =
      DatabaseStorage.getAccessibleDocuments filterStore 2 0 0 ∧
    MemStorage.getAccessibleDocuments filterStore 2 0 0 = [docF1] :=
  ⟨(accessible_documents_filter_correct filterStore 2 0 0
      (by decide) (by decide) (by decide)).1, by decide⟩

/-! ### Query-parameter coercion -/

lemma jsLeInt_zero (a : Option Nat) : jsLeInt a 0 = (a.getD 0 == 0) := by
  unfold jsLeInt
  cases a with
  | none => rfl
  | some v =>
    cases v with
    | zero => rfl
    | succ n =>
      have h1 : ¬((((n + 1 : Nat) : Option Nat).getD 0 : Int) ≤ 0) := by
        simp
      rw [decide_eq_false h1]
      symm
      rw [beq_eq_false_iff_ne]
      simp

/-- **C10** (query-parameter coercion): a missing or non-numeric
`securityLevel`/`medicalLevel`/`adminLevel` query parameter is coerced to 0
by `parseInt(...) || 0` before filtering; consequently every document the
route then returns has requirement 0 (or null) on that axis, and a fully
malformed vector silently degrades to the zero vector: the route returns
exactly the documents whose every axis requirement is 0 or null, with no
validation error. -/
theorem accessible_query_param_coercion (s : Store) (qSec qMed qAdmin : Option String) :
    (malformedParam qSec = true → Routes.parseQueryLevel qSec = 0) ∧
    (malformedParam qSec = true →
      ∀ d ∈ Routes.accessibleDocuments s qSec qMed qAdmin, d.securityLevel.getD 0 = 0) ∧
    (malformedParam qMed = true →
      ∀ d ∈ Routes.accessibleDocuments s qSec qMed qAdmin, d.medicalLevel.getD 0 = 0) ∧
    (malformedParam qAdmin = true →
      ∀ d ∈ Routes.accessibleDocuments s qSec qMed qAdmin, d.adminLevel.getD 0 = 0) ∧
    (malformedParam qSec = true → malformedParam qMed = true → malformedParam qAdmin = true →
      Routes.accessibleDocuments s qSec qMed qAdmin =
        s.documents.filter (fun d => d.securityLevel.getD 0 == 0 &&
          d.medicalLevel.getD 0 == 0 && d.adminLevel.getD 0 == 0)) := by
  have hz : ∀ q : Option String, malformedParam q = true → Routes.parseQueryLevel q = 0 := by
    intro q hq
    cases q with
    | none => rfl
    | some str =>
      dsimp only [malformedParam] at hq
      show (jsParseInt str).getD 0 = 0
      rw [Option.isNone_iff_eq_none.mp hq]
      rfl
  have haxis : ∀ d, d ∈ Routes.accessibleDocuments s qSec qMed qAdmin →
      jsLeInt d.securityLevel (Routes.parseQueryLevel qSec) = true ∧
      jsLeInt d.medicalLevel (Routes.parseQueryLevel qMed) = true ∧
      jsLeInt d.adminLevel (Routes.parseQueryLevel qAdmin) = true := by
    intro d hd
    unfold Routes.accessibleDocuments MemStorage.getAccessibleDocuments at hd
    have hm := (List.mem_filter.mp hd).2
    rw [Bool.and_eq_true, Bool.and_eq_true] at hm
    exact ⟨hm.1.1, hm.1.2, hm.2⟩
  have hzero : ∀ (a : Option Nat), jsLeInt a 0 = true → a.getD 0 = 0 := by
    intro a ha
    unfold jsLeInt at ha
    have := of_decide_eq_true ha
    omega
  refine ⟨hz qSec, ?_, ?_, ?_, ?_⟩
  · intro hq d hd
    have h := (haxis d hd).1
    rw [hz qSec hq] at h
    exact hzero _ h
  · intro hq d hd
    have h := (haxis d hd).2.1
    rw [hz qMed hq] at h
    exact hzero _ h
  · intro hq d hd
    have h := (haxis d hd).2.2
    rw [hz qAdmin hq] at h
    exact hzero _ h
  · intro h1 h2 h3
    unfold Routes.accessibleDocuments MemStorage.getAccessibleDocuments
    rw [hz qSec h1, hz qMed h2, hz qAdmin h3]
    apply List.filter_congr
    intro d _
    rw [jsLeInt_zero, jsLeInt_zero, jsLeInt_zero]

/-- **C10 witness**: on `demoStore` (documents requiring (3,0,0) and
(0,0,0)), the request with securityLevel "abc", medicalLevel missing and
adminLevel "??" degrades to the zero vector and returns exactly the
all-zero document. -/
theorem accessible_query_param_coercion_witness :
    malformedParam (some "abc") = true ∧
    Routes.accessibleDocuments demoStore (some "abc") none (some "??") = [docB] := by
  refine ⟨by decide, ?_⟩
  have h := (accessible_query_param_coercion demoStore (some "abc") none
    (some "??")).2.2.2.2 (by decide) (by decide) (by decide)
  rw [h]
  decide

end StorySystems
